import Mathlib

/-!
Shallow embedding of `src/main.py` (Yahoo news transfer + enrichment pipeline).

Modelling conventions:
* JST instants are modelled as seconds (`Int`) counted from an epoch that falls
  on a JST midnight; the timezone offset is fixed (no DST), so Python's
  `datetime ± timedelta` is exact addition of seconds and
  `dt.replace(hour=h, minute=m, second=s, microsecond=0)` is
  "midnight of dt's calendar day + h*3600 + m*60 + s".  Timestamps are kept at
  second resolution (`microsecond=0` is forced on both window bounds).
* `parse_post_date` and `format_yy_m_d_hm` act on calendar datetimes; the
  transfer stage treats them as black boxes, so they enter the embedding as
  explicit function parameters (`parseDate`, `formatDate`).  The claims under
  study only quantify over their results.
* Worksheet cells read by the transfer stage are strings; the heterogeneous
  rows written by the enrichment stage (strings and an integer comment count)
  are modelled by the `Cell` sum type.
* The unbounded comment-page loop (`while True` over `page = 1, 2, ...`) is
  embedded as a well-founded recursion over the remaining room below
  `MAX_TOTAL_COMMENTS`; the page streams are total functions `Nat → List String`
  giving the texts extracted on each page, so even "infinite" streams are
  representable.
-/

namespace YahooMain

/-! ### Time model and acceptance window (src/main.py lines 142-144) -/

/-- Midnight (00:00:00 JST) of the calendar day containing instant `t`. -/
def dayStart (t : Int) : Int := t - t % 86400

/-- `dt.replace(hour := h, minute := m, second := s, microsecond := 0)`. -/
def replaceTime (t h m s : Int) : Int := dayStart t + h * 3600 + m * 60 + s

/-- `start = (now - timedelta(days=1)).replace(hour=15, minute=0, second=0, microsecond=0)`. -/
def windowStart (now : Int) : Int := replaceTime (now - 86400) 15 0 0

/-- `end = now.replace(hour=14, minute=59, second=59, microsecond=0)`. -/
def windowEnd (now : Int) : Int := replaceTime now 14 59 59

/-- Seconds into the day: the clock time of instant `t`. -/
def timeOfDay (t : Int) : Int := t % 86400

/-! ### Transfer stage (src/main.py lines 137-169) -/

/-- Python's `str.strip()`: drop whitespace from both ends (implemented
structurally over the character list). -/
def pyStrip (s : String) : String :=
  ⟨(((s.data.dropWhile Char.isWhitespace).reverse.dropWhile Char.isWhitespace).reverse)⟩

/-- `r[i]` when present, else the empty string (Python's
`r[i] if len(r) > i and r[i] else ""` guard composed with `.strip()` is
reproduced by `pyStrip` on this value: stripping an empty or absent cell
yields the empty string either way). -/
def cellAt (r : List String) (i : Nat) : String := (r.get? i).getD ""

/-- The per-row body of the loop in `transfer_a_to_e` (lines 150-164): returns
the staged output row, or `none` when the row is skipped.  `parseDate` stands
for `parse_post_date(raw, now)` and `formatDate` for `format_yy_m_d_hm`. -/
def stageRow (parseDate : String → Int → Option Int) (formatDate : Int → String)
    (startT stopT : Int) (existing : List String) (now : Int)
    (r : List String) : Option (List String) :=
  let title := pyStrip (cellAt r 0)
  let url := pyStrip (cellAt r 1)
  let postedRaw := cellAt r 2
  let site := pyStrip (cellAt r 3)
  if title = "" ∨ url = "" then none
  else
    match parseDate postedRaw now with
    | none => none
    | some dt =>
      if ¬ (startT ≤ dt ∧ dt ≤ stopT) then none
      else if url ∈ existing then none
      else some ["Yahoo", title, url, formatDate dt, site]

/-- `transfer_a_to_e` (lines 137-169): drops the header row, stages every
admissible source row, and returns the list that is bulk-appended (the Python
function returns its length).  `existing` is the ledger snapshot produced by
`get_existing_urls` (line 147); it is read once, before the loop, and never
extended while the batch is being staged. -/
def transfer_a_to_e (parseDate : String → Int → Option Int)
    (formatDate : Int → String) (rows : List (List String))
    (existing : List String) (now : Int) : List (List String) :=
  (rows.drop 1).filterMap
    (stageRow parseDate formatDate (windowStart now) (windowEnd now) existing now)

/-! ### Article-body fetcher (src/main.py lines 172-206) -/

/-- `MAX_BODY_PAGES` (line 42). -/
def MAX_BODY_PAGES : Nat := 10

/-- The page loop of `fetch_article_pages` (lines 176-205).  `pages n` is the
outcome of fetching page `n`: `none` when the HTTP request raises or returns a
non-2xx status (line 182: `break`), `some body` with the extracted body text
otherwise (empty string when both the `article` and `main` containers yield
nothing).  The first argument counts the iterations left in
`range(1, MAX_BODY_PAGES + 1)`. -/
def fetchBodiesGo (pages : Nat → Option String) :
    Nat → Nat → List String → List String
  | 0, _, bodies => bodies
  | n + 1, page, bodies =>
    match pages page with
    | none => bodies
    | some body =>
      if body = "" ∨ bodies.getLast? = some body then bodies
      else fetchBodiesGo pages n (page + 1) (bodies ++ [body])

/-- `fetch_article_pages` restricted to its `bodies` result (the title/date
extraction on page 1 feeds no claim under study). -/
def fetch_article_pages (pages : Nat → Option String) : List String :=
  fetchBodiesGo pages MAX_BODY_PAGES 1 []

/-! ### Comment fetcher (src/main.py lines 209-275) -/

/-- `MAX_TOTAL_COMMENTS` (line 46). -/
def MAX_TOTAL_COMMENTS : Nat := 5000

/-- `list(dict.fromkeys(...))` (line 250): drop every element already seen,
keeping the first occurrence of each value in order. -/
def dedupSeen (seen : List String) : List String → List String
  | [] => []
  | x :: xs => if x ∈ seen then dedupSeen seen xs else x :: dedupSeen (x :: seen) xs

/-- Lines 248-250: keep the non-empty extracted texts of one page, then
collapse duplicates within the page preserving first occurrence.  `texts` is
the list of `get_text(strip=True)` values of the merged selector matches. -/
def extractPage (texts : List String) : List String :=
  dedupSeen [] (texts.filter (fun s => s != ""))

/-- Line 257: `last_tail is not None and page_comments and page_comments[0] == last_tail`. -/
def boundaryDup (lastTail : Option String) (pc : List String) : Bool :=
  match lastTail with
  | none => false
  | some t => pc.head? == some t

/-- The `while True` loop of `fetch_comments_with_selenium` (lines 227-270).
Each iteration either stops (empty page, boundary duplicate, or safety cap) or
appends a non-empty deduplicated page, so the room left below
`MAX_TOTAL_COMMENTS` is a decreasing measure: the loop terminates on every
page stream, including streams in which every page is non-empty. -/
def fetchCommentsGo (pages : Nat → List String) (page : Nat)
    (comments : List String) (lastTail : Option String) : List String :=
  if h1 : extractPage (pages page) = [] then comments
  else if boundaryDup lastTail (extractPage (pages page)) then comments
  else if h3 : MAX_TOTAL_COMMENTS ≤ (comments ++ extractPage (pages page)).length then
    (comments ++ extractPage (pages page)).take MAX_TOTAL_COMMENTS
  else
    fetchCommentsGo pages (page + 1) (comments ++ extractPage (pages page))
      (extractPage (pages page)).getLast?
termination_by MAX_TOTAL_COMMENTS - comments.length
decreasing_by
  have hp : 0 < (extractPage (pages page)).length := List.length_pos.mpr h1
  simp only [List.length_append] at h3 ⊢
  omega

/-- `fetch_comments_with_selenium` (lines 209-275): start at page 1 with no
accumulated comments and no previous tail. -/
def fetch_comments_with_selenium (pages : Nat → List String) : List String :=
  fetchCommentsGo pages 1 [] none

/-! ### Header and schema widening (src/main.py lines 123-134 and 278-315) -/

/-- A worksheet cell as assembled by `write_bodies_and_comments`: the Python
row lists mix strings (body pages, comment texts, padding) with one integer
(the comment count). -/
inductive Cell where
  | str (s : String)
  | num (n : Nat)
deriving DecidableEq

/-- Line 128: the five fixed A-E labels. -/
def baseHeaders : List String := ["ソース", "タイトル", "URL", "投稿日", "掲載元"]

/-- Line 129: `[f"本文({i}ページ)" for i in range(1, 11)]`. -/
def bodyHeaders : List String :=
  (List.range' 1 MAX_BODY_PAGES).map (fun i => s!"本文({i}ページ)")

/-- Line 131: `[f"コメント{i}" for i in range(1, max(1, max_comments) + 1)]`. -/
def commentHeaders (maxComments : Nat) : List String :=
  (List.range' 1 (max 1 maxComments)).map (fun i => s!"コメント{i}")

/-- `ensure_body_comment_headers` (lines 123-134): the full header row that is
written when the current row 1 differs from it. -/
def ensure_body_comment_headers (maxComments : Nat) : List String :=
  baseHeaders ++ bodyHeaders ++ ["コメント数"] ++ commentHeaders maxComments

/-- Line 293: `bodies[:MAX_BODY_PAGES] + [""] * (MAX_BODY_PAGES - len(bodies))`
(a negative Python repetition count yields `[]`, as Nat subtraction does). -/
def mkBodyCells (bodies : List String) : List Cell :=
  (bodies.take MAX_BODY_PAGES).map Cell.str
    ++ List.replicate (MAX_BODY_PAGES - bodies.length) (Cell.str "")

/-- Line 295: `row = body_cells + [cnt] + comments` for a URL whose two
fetches succeeded. -/
def successRow (bodies comments : List String) : List Cell :=
  mkBodyCells bodies ++ [Cell.num comments.length] ++ comments.map Cell.str

/-- Line 301: the degraded row appended when the per-URL `try` block raises:
`([""] * MAX_BODY_PAGES) + [0]`. -/
def errorRow : List Cell :=
  List.replicate MAX_BODY_PAGES (Cell.str "") ++ [Cell.num 0]

/-- The per-URL loop of `write_bodies_and_comments` (lines 285-301).  Each
entry of `results` is the outcome of `fetch_article_pages` and
`fetch_comments_with_selenium` for one URL: `some (bodies, comments)` on
success, `none` when an exception was caught at the per-URL boundary.  Returns
`rows_data` together with the running maximum `max_comments` (the loop's
sequential `if cnt > max_comments` update computes the same maximum as this
right fold, `max` being associative and commutative with unit 0). -/
def rowsAndMax : List (Option (List String × List String)) → List (List Cell) × Nat
  | [] => ([], 0)
  | some (bodies, comments) :: rest =>
    let p := rowsAndMax rest
    (successRow bodies comments :: p.1, max comments.length p.2)
  | none :: rest =>
    let p := rowsAndMax rest
    (errorRow :: p.1, p.2)

/-- Lines 305-307: right-pad a row with empty-string cells up to `need` cells. -/
def padRow (need : Nat) (r : List Cell) : List Cell :=
  if r.length < need then r ++ List.replicate (need - r.length) (Cell.str "") else r

/-- `write_bodies_and_comments` (lines 278-315) restricted to the data it
writes: `none` when the partition holds no URLs (line 282-283 returns before
any header or row write); otherwise the header row passed to
`ensure_body_comment_headers` and the padded `rows_data` block written at F2,
with `need_cols = MAX_BODY_PAGES + 1 + max_comments` (line 304). -/
def write_bodies_and_comments (results : List (Option (List String × List String))) :
    Option (List String × List (List Cell)) :=
  if results.isEmpty then none
  else
    let p := rowsAndMax results
    some (ensure_body_comment_headers p.2,
      p.1.map (padRow (MAX_BODY_PAGES + 1 + p.2)))

/-! ### Concrete inputs used by closed instances -/

/-- A date parser that resolves every raw cell to 10:00 on day 100. -/
def pdConst : String → Int → Option Int := fun _ _ => some (100 * 86400 + 10 * 3600)

/-- A display formatter returning a fixed string. -/
def fdConst : Int → String := fun _ => "25/8/20 10:00"

/-- Reference instant: day 100 at 16:00 JST. -/
def nowDay100 : Int := 100 * 86400 + 16 * 3600

/-- A source range whose two data rows carry the same URL `"u"`. -/
def rowsDupUrl : List (List String) :=
  [["タイトル", "URL", "投稿日", "掲載元"],
   ["t1", "u", "x", "s1"],
   ["t2", "u", "y", "s2"]]

/-- A date parser mapping four tokens to the four window-boundary instants of
`nowDay100`: exactly `start`, exactly `end`, one second before `start`, one
second after `end`. -/
def pdBoundary : String → Int → Option Int := fun s _ =>
  if s = "atStart" then some (99 * 86400 + 54000)
  else if s = "atEnd" then some (100 * 86400 + 53999)
  else if s = "beforeStart" then some (99 * 86400 + 53999)
  else if s = "afterEnd" then some (100 * 86400 + 54000)
  else none

/-- Article pages A, B, A (then request failure). -/
def pagesABA : Nat → Option String := fun n =>
  if n = 1 then some "A" else if n = 2 then some "B"
  else if n = 3 then some "A" else none

/-- Article pages A, B, B (then request failure). -/
def pagesABB : Nat → Option String := fun n =>
  if n = 1 then some "A" else if n = 2 then some "B"
  else if n = 3 then some "B" else none

/-- Comment pages `[["x","y"], ["y","z"]]`, empty afterwards. -/
def pagesXY : Nat → List String := fun n =>
  if n = 1 then ["x", "y"] else if n = 2 then ["y", "z"] else []

/-- Comment pages `[["x","y"], ["x","z"]]`, empty afterwards: the text `"x"`
recurs on page 2 away from the boundary. -/
def pagesXrepeat : Nat → List String := fun n =>
  if n = 1 then ["x", "y"] else if n = 2 then ["x", "z"] else []

/-- Enrichment outcomes with per-row comment counts `[0, 3, 1]`. -/
def resultsCounts031 : List (Option (List String × List String)) :=
  [some ([], []), some ([], ["c1", "c2", "c3"]), some ([], ["d1"])]

/-- Enrichment outcomes for three URLs where the second raised. -/
def resultsMidError : List (Option (List String × List String)) :=
  [some (["b1"], ["c1"]), none, some ([], [])]

/-- Reference instant: day 100 at 10:00 JST (clock time before 15:00). -/
def nowMorning : Int := 100 * 86400 + 10 * 3600

/-- Enrichment outcome of a single URL whose fetches raised. -/
def resultsOneError : List (Option (List String × List String)) := [none]

/-! ### Helper lemmas -/

theorem fetchCommentsGo_empty (pages : Nat → List String) (page : Nat)
    (comments : List String) (lastTail : Option String)
    (h : extractPage (pages page) = []) :
    fetchCommentsGo pages page comments lastTail = comments := by
  rw [fetchCommentsGo]
  simp [h]

theorem fetchCommentsGo_dup (pages : Nat → List String) (page : Nat)
    (comments : List String) (lastTail : Option String)
    (h : boundaryDup lastTail (extractPage (pages page)) = true) :
    fetchCommentsGo pages page comments lastTail = comments := by
  rw [fetchCommentsGo]
  by_cases h1 : extractPage (pages page) = [] <;> simp [h1, h]

theorem fetchCommentsGo_next (pages : Nat → List String) (page : Nat)
    (comments : List String) (lastTail : Option String)
    (h1 : extractPage (pages page) ≠ [])
    (h2 : boundaryDup lastTail (extractPage (pages page)) = false)
    (h3 : (comments ++ extractPage (pages page)).length < MAX_TOTAL_COMMENTS) :
    fetchCommentsGo pages page comments lastTail
      = fetchCommentsGo pages (page + 1) (comments ++ extractPage (pages page))
          (extractPage (pages page)).getLast? := by
  have h3x : ¬ MAX_TOTAL_COMMENTS ≤ comments.length + (extractPage (pages page)).length := by
    simpa using Nat.not_le.mpr h3
  rw [fetchCommentsGo]
  simp [h1, h2, h3x]

theorem fetchCommentsGo_cap (pages : Nat → List String) (page : Nat)
    (comments : List String) (lastTail : Option String)
    (h1 : extractPage (pages page) ≠ [])
    (h2 : boundaryDup lastTail (extractPage (pages page)) = false)
    (h3 : MAX_TOTAL_COMMENTS ≤ (comments ++ extractPage (pages page)).length) :
    fetchCommentsGo pages page comments lastTail
      = (comments ++ extractPage (pages page)).take MAX_TOTAL_COMMENTS := by
  have h3x : MAX_TOTAL_COMMENTS ≤ comments.length + (extractPage (pages page)).length := by
    simpa using h3
  rw [fetchCommentsGo]
  simp [h1, h2, h3x]

theorem fetchCommentsGo_length_le (pages : Nat → List String) :
    ∀ (n page : Nat) (comments : List String) (lastTail : Option String),
      comments.length ≤ MAX_TOTAL_COMMENTS →
      MAX_TOTAL_COMMENTS - comments.length ≤ n →
      (fetchCommentsGo pages page comments lastTail).length ≤ MAX_TOTAL_COMMENTS := by
  intro n
  induction n with
  | zero =>
    intro page comments lastTail hle hn
    rw [fetchCommentsGo]
    split_ifs with h1 h2 h3
    · exact hle
    · exact hle
    · simp [List.length_take]
    · exfalso
      have hp : 0 < (extractPage (pages page)).length := List.length_pos.mpr h1
      simp only [List.length_append, Nat.not_le] at h3
      omega
  | succ n ih =>
    intro page comments lastTail hle hn
    rw [fetchCommentsGo]
    split_ifs with h1 h2 h3
    · exact hle
    · exact hle
    · simp [List.length_take]
    · have hp : 0 < (extractPage (pages page)).length := List.length_pos.mpr h1
      simp only [Nat.not_le] at h3
      apply ih
      · exact Nat.le_of_lt (by simpa using h3)
      · simp only [List.length_append] at h3 ⊢
        omega



theorem dedupSeen_mem : ∀ (l seen : List String) (x : String),
    x ∈ dedupSeen seen l ↔ x ∈ l ∧ x ∉ seen := by
  intro l
  induction l with
  | nil => intro seen x; simp [dedupSeen]
  | cons a as ih =>
    intro seen x
    rw [dedupSeen]
    by_cases ha : a ∈ seen
    · rw [if_pos ha, ih]
      constructor
      · rintro ⟨hx, hns⟩
        exact ⟨List.mem_cons_of_mem a hx, hns⟩
      · rintro ⟨hx, hns⟩
        rcases List.mem_cons.mp hx with rfl | hx
        · exact absurd ha hns
        · exact ⟨hx, hns⟩
    · rw [if_neg ha]
      simp only [List.mem_cons, ih, not_or]
      constructor
      · rintro (rfl | ⟨hx, hxa, hns⟩)
        · exact ⟨Or.inl rfl, ha⟩
        · exact ⟨Or.inr hx, hns⟩
      · rintro ⟨rfl | hx, hns⟩
        · exact Or.inl rfl
        · by_cases hxa : x = a
          · exact Or.inl hxa
          · exact Or.inr ⟨hx, hxa, hns⟩

theorem dedupSeen_nodup : ∀ (l seen : List String), (dedupSeen seen l).Nodup := by
  intro l
  induction l with
  | nil => intro seen; simp [dedupSeen]
  | cons a as ih =>
    intro seen
    rw [dedupSeen]
    by_cases ha : a ∈ seen
    · rw [if_pos ha]; exact ih seen
    · rw [if_neg ha]
      refine List.nodup_cons.mpr ⟨fun hmem => ?_, ih (a :: seen)⟩
      exact ((dedupSeen_mem as (a :: seen) a).mp hmem).2 (List.mem_cons_self a seen)

theorem dedupSeen_sublist : ∀ (l seen : List String), (dedupSeen seen l).Sublist l := by
  intro l
  induction l with
  | nil => intro seen; simp [dedupSeen]
  | cons a as ih =>
    intro seen
    rw [dedupSeen]
    by_cases ha : a ∈ seen
    · rw [if_pos ha]; exact (ih seen).cons a
    · rw [if_neg ha]; exact (ih (a :: seen)).cons₂ a

theorem extractPage_nodup (texts : List String) : (extractPage texts).Nodup :=
  dedupSeen_nodup _ []

theorem extractPage_sublist (texts : List String) :
    (extractPage texts).Sublist (texts.filter (fun s => s != "")) :=
  dedupSeen_sublist _ []

theorem extractPage_mem (texts : List String) (s : String) :
    s ∈ extractPage texts ↔ s ∈ texts ∧ s ≠ "" := by
  rw [extractPage, dedupSeen_mem]
  simp [List.mem_filter]



theorem fetchBodiesGo_invariant (pages : Nat → Option String) :
    ∀ (n page : Nat) (bodies : List String),
      "" ∉ bodies → List.Chain' (fun a b => a ≠ b) bodies →
      (fetchBodiesGo pages n page bodies).length ≤ bodies.length + n ∧
      "" ∉ fetchBodiesGo pages n page bodies ∧
      List.Chain' (fun a b => a ≠ b) (fetchBodiesGo pages n page bodies) := by
  intro n
  induction n with
  | zero =>
    intro page bodies hne hch
    exact ⟨Nat.le_refl _, hne, hch⟩
  | succ n ih =>
    intro page bodies hne hch
    rw [fetchBodiesGo]
    cases hpg : pages page with
    | none => exact ⟨Nat.le_add_right _ _, hne, hch⟩
    | some body =>
      dsimp only
      by_cases hstop : body = "" ∨ bodies.getLast? = some body
      · rw [if_pos hstop]
        exact ⟨Nat.le_add_right _ _, hne, hch⟩
      · rw [if_neg hstop]
        push_neg at hstop
        obtain ⟨hbody, hlast⟩ := hstop
        have hne' : "" ∉ bodies ++ [body] := by
          simp only [List.mem_append, List.mem_singleton]
          rintro (h | h)
          · exact hne h
          · exact hbody h.symm
        have hch' : List.Chain' (fun a b => a ≠ b) (bodies ++ [body]) := by
          rw [List.chain'_append]
          refine ⟨hch, List.chain'_singleton body, ?_⟩
          intro x hx y hy
          simp only [List.head?_cons, Option.mem_def, Option.some.injEq] at hy
          subst hy
          intro hxy
          exact hlast (hx ▸ hxy ▸ rfl)
        have := ih (page + 1) (bodies ++ [body]) hne' hch'
        refine ⟨?_, this.2.1, this.2.2⟩
        calc (fetchBodiesGo pages n (page + 1) (bodies ++ [body])).length
            ≤ (bodies ++ [body]).length + n := this.1
          _ = bodies.length + (n + 1) := by simp [List.length_append]; omega



theorem mkBodyCells_length (bodies : List String) :
    (mkBodyCells bodies).length = MAX_BODY_PAGES := by
  simp only [mkBodyCells, List.length_append, List.length_map, List.length_take,
    List.length_replicate, MAX_BODY_PAGES]
  omega

theorem successRow_length (bodies comments : List String) :
    (successRow bodies comments).length = MAX_BODY_PAGES + 1 + comments.length := by
  simp [successRow, mkBodyCells_length]
  omega

theorem errorRow_length : errorRow.length = MAX_BODY_PAGES + 1 := by
  simp [errorRow]

theorem rowsAndMax_length (results : List (Option (List String × List String))) :
    (rowsAndMax results).1.length = results.length := by
  induction results with
  | nil => simp [rowsAndMax]
  | cons r rest ih =>
    cases r with
    | none => simp [rowsAndMax, ih]
    | some p => cases p with
      | mk bodies comments => simp [rowsAndMax, ih]

theorem rowsAndMax_row_le (results : List (Option (List String × List String))) :
    ∀ r ∈ (rowsAndMax results).1, r.length ≤ MAX_BODY_PAGES + 1 + (rowsAndMax results).2 := by
  induction results with
  | nil => simp [rowsAndMax]
  | cons x rest ih =>
    cases x with
    | none =>
      intro r hr
      rw [rowsAndMax] at hr ⊢
      rcases List.mem_cons.mp hr with rfl | hr
      · simp [errorRow_length]
      · exact ih r hr
    | some p =>
      cases p with
      | mk bodies comments =>
        intro r hr
        rw [rowsAndMax] at hr ⊢
        rcases List.mem_cons.mp hr with rfl | hr
        · simp only [successRow_length]
          omega
        · calc r.length ≤ MAX_BODY_PAGES + 1 + (rowsAndMax rest).2 := ih r hr
            _ ≤ _ := by
              simp only []
              omega

theorem padRow_length (need : Nat) (r : List Cell) (h : r.length ≤ need) :
    (padRow need r).length = need := by
  rw [padRow]
  by_cases hlt : r.length < need
  · rw [if_pos hlt]
    simp only [List.length_append, List.length_replicate]
    omega
  · rw [if_neg hlt]
    omega

theorem rowsAndMax_get_none (results : List (Option (List String × List String))) :
    ∀ i : Nat, results.get? i = some none → (rowsAndMax results).1.get? i = some errorRow := by
  induction results with
  | nil => simp
  | cons x rest ih =>
    intro i hi
    cases i with
    | zero =>
      simp only [List.get?] at hi
      cases hi
      simp [rowsAndMax]
    | succ j =>
      simp only [List.get?] at hi
      cases x with
      | none => simpa [rowsAndMax] using ih j hi
      | some p =>
        cases p with
        | mk bodies comments => simpa [rowsAndMax] using ih j hi



theorem stageRow_url_not_existing (parseDate : String → Int → Option Int)
    (formatDate : Int → String) (startT stopT : Int) (existing : List String)
    (now : Int) (r row : List String)
    (h : stageRow parseDate formatDate startT stopT existing now r = some row) :
    ∀ u, row.get? 2 = some u → u ∉ existing := by
  rw [stageRow] at h
  by_cases hte : pyStrip (cellAt r 0) = "" ∨ pyStrip (cellAt r 1) = ""
  · simp [hte] at h
  · rw [if_neg hte] at h
    cases hpd : parseDate (cellAt r 2) now with
    | none => rw [hpd] at h; cases h
    | some dt =>
      rw [hpd] at h
      dsimp only at h
      by_cases hw : ¬ (startT ≤ dt ∧ dt ≤ stopT)
      · simp [hw] at h
      · rw [if_neg hw] at h
        by_cases hex : pyStrip (cellAt r 1) ∈ existing
        · simp [hex] at h
        · rw [if_neg hex] at h
          cases h
          intro u hu hmem
          simp only [List.get?] at hu
          cases hu
          exact hex hmem

theorem transfer_stages_only_new (parseDate : String → Int → Option Int)
    (formatDate : Int → String) (rows : List (List String))
    (existing : List String) (now : Int) :
    ∀ row ∈ transfer_a_to_e parseDate formatDate rows existing now,
      ∀ u, row.get? 2 = some u → u ∉ existing := by
  intro row hrow
  rw [transfer_a_to_e, List.mem_filterMap] at hrow
  obtain ⟨r, _, hr⟩ := hrow
  exact stageRow_url_not_existing _ _ _ _ _ _ _ _ hr

theorem transfer_single_record (parseDate : String → Int → Option Int)
    (formatDate : Int → String) (hdr : List String)
    (title url praw site : String) (existing : List String) (now T : Int)
    (hT : parseDate praw now = some T)
    (htitle : pyStrip title ≠ "") (hurl : pyStrip url ≠ "")
    (hex : pyStrip url ∉ existing) :
    transfer_a_to_e parseDate formatDate [hdr, [title, url, praw, site]] existing now
      = if windowStart now ≤ T ∧ T ≤ windowEnd now
        then [["Yahoo", pyStrip title, pyStrip url, formatDate T, pyStrip site]]
        else [] := by
  have hcell0 : cellAt [title, url, praw, site] 0 = title := rfl
  have hcell1 : cellAt [title, url, praw, site] 1 = url := rfl
  have hcell2 : cellAt [title, url, praw, site] 2 = praw := rfl
  have hcell3 : cellAt [title, url, praw, site] 3 = site := rfl
  rw [transfer_a_to_e]
  show List.filterMap _ [[title, url, praw, site]] = _
  rw [List.filterMap_cons]
  rw [stageRow, hcell0, hcell1, hcell2, hcell3]
  rw [if_neg (by tauto), hT]
  dsimp only
  by_cases hw : windowStart now ≤ T ∧ T ≤ windowEnd now
  · rw [if_neg (not_not.mpr hw), if_neg hex, if_pos hw]
    simp
  · rw [if_pos hw, if_neg hw]
    simp

/-! ### Claim theorems -/

/-- C1 counterexample: two source records carrying the same URL `"u"` within the
same batch are both staged by `transfer_a_to_e` (the ledger snapshot is never
extended during the loop), so the batch does not contain "exactly one staged
row" for that URL. -/
theorem transfer_batch_duplicate_staged_twice :
    transfer_a_to_e pdConst fdConst rowsDupUrl [] nowDay100
      = [["Yahoo", "t1", "u", "25/8/20 10:00", "s1"],
         ["Yahoo", "t2", "u", "25/8/20 10:00", "s2"]] ∧
    (transfer_a_to_e pdConst fdConst rowsDupUrl [] nowDay100).length ≠ 1 := by
  constructor <;> decide

/-- C1 (amended): admission is at-most-once against the ledger snapshot only —
the URL of every staged row is absent from the partition identifier column, so
a URL already present yields zero newly staged rows; duplicate admission is
not prevented within the same batch. -/
theorem transfer_admission_ledger_only (parseDate : String → Int → Option Int)
    (formatDate : Int → String) (rows : List (List String))
    (existing : List String) (now : Int) :
    ∀ row ∈ transfer_a_to_e parseDate formatDate rows existing now,
      ∀ u, row.get? 2 = some u → u ∉ existing :=
  transfer_stages_only_new parseDate formatDate rows existing now

/-- C1 witness: the amended theorem applied to a concrete staged row of a
concrete transfer run with ledger snapshot `["w"]`. -/
theorem transfer_admission_ledger_only_witness : ("u" : String) ∉ ["w"] :=
  transfer_admission_ledger_only pdConst fdConst rowsDupUrl ["w"] nowDay100
    ["Yahoo", "t1", "u", "25/8/20 10:00", "s1"] (by decide) "u" (by decide)

/-- C2 counterexample: at a reference instant whose clock time (10:00) is
before 15:00, the computed window start is still the previous calendar day at
15:00:00, not two calendar days prior as the claim states. -/
theorem window_start_not_two_days_prior :
    timeOfDay nowMorning < 15 * 3600 ∧
    windowStart nowMorning = replaceTime (nowMorning - 86400) 15 0 0 ∧
    windowStart nowMorning ≠ replaceTime (nowMorning - 2 * 86400) 15 0 0 := by
  refine ⟨by decide, rfl, by decide⟩

/-- C2 (amended): for every reference instant `now`, the window start is the
previous calendar day at 15:00:00 — regardless of `now`\'s clock time — and the
window end is `now`\'s own calendar day at 14:59:59, making the window span
exactly 86399 seconds.  (Only when `now`\'s clock time is at or after 15:00 is
this the preceding complete 15:00-to-14:59:59 cycle; before 15:00 the window is
the current, still-incomplete cycle containing `now`.) -/
theorem window_start_always_previous_day (now : Int) :
    windowStart now = dayStart now - 86400 + 15 * 3600 ∧
    windowEnd now = dayStart now + (14 * 3600 + 59 * 60 + 59) ∧
    windowEnd now - windowStart now = 86399 := by
  simp only [windowStart, windowEnd, replaceTime, dayStart]
  omega

/-- C3: per page, the comment fetcher stops (appending nothing) on a page that
yields zero extracted comments; stops (appending nothing) when the first
comment of the current page equals the last comment already accumulated; and
otherwise appends the whole deduplicated page and continues with the page
counter advanced; on pages `[["x","y"],["y","z"]]` the result is `["x","y"]`. -/
theorem comment_pagination_stop_conditions :
    (∀ (pages : Nat → List String) (page : Nat) (acc : List String) (t : Option String),
       extractPage (pages page) = [] → fetchCommentsGo pages page acc t = acc) ∧
    (∀ (pages : Nat → List String) (page : Nat) (acc : List String),
       acc ≠ [] → (extractPage (pages page)).head? = acc.getLast? →
       fetchCommentsGo pages page acc acc.getLast? = acc) ∧
    (∀ (pages : Nat → List String) (page : Nat) (acc : List String) (t : Option String),
       extractPage (pages page) ≠ [] →
       boundaryDup t (extractPage (pages page)) = false →
       (acc ++ extractPage (pages page)).length < MAX_TOTAL_COMMENTS →
       fetchCommentsGo pages page acc t
         = fetchCommentsGo pages (page + 1) (acc ++ extractPage (pages page))
             (extractPage (pages page)).getLast?) ∧
    fetch_comments_with_selenium pagesXY = ["x", "y"] := by
  refine ⟨fetchCommentsGo_empty, ?_, fetchCommentsGo_next, ?_⟩
  · intro pages page acc hacc hhead
    obtain ⟨t', ht'⟩ := Option.ne_none_iff_exists'.mp
      (mt List.getLast?_eq_none_iff.mp hacc)
    apply fetchCommentsGo_dup
    rw [ht'] at hhead ⊢
    simp [boundaryDup, hhead]
  · rw [fetch_comments_with_selenium]
    rw [fetchCommentsGo_next pagesXY 1 [] none (by decide) (by decide) (by decide)]
    rw [fetchCommentsGo_dup pagesXY 2 ([] ++ extractPage (pagesXY 1))
      (extractPage (pagesXY 1)).getLast? (by decide)]
    decide

/-- C3 witness: the three stop/step facts of the claim theorem discharged at
concrete pages, accumulators and tails. -/
theorem comment_pagination_stop_conditions_witness :
    fetchCommentsGo pagesXY 3 ["a"] (some "q") = ["a"] ∧
    fetchCommentsGo pagesXY 2 ["x", "y"] (["x", "y"].getLast?) = ["x", "y"] ∧
    fetchCommentsGo pagesXY 1 [] none
      = fetchCommentsGo pagesXY 2 ([] ++ extractPage (pagesXY 1))
          (extractPage (pagesXY 1)).getLast? :=
  ⟨comment_pagination_stop_conditions.1 pagesXY 3 ["a"] (some "q") (by decide),
   comment_pagination_stop_conditions.2.1 pagesXY 2 ["x", "y"] (by decide) (by decide),
   comment_pagination_stop_conditions.2.2.1 pagesXY 1 [] none (by decide) (by decide) (by decide)⟩

/-- C4: `MAX_TOTAL_COMMENTS` is 5000 and the comment fetcher returns at most
that many comments on every page stream, including infinite streams of
non-empty pages.  Termination itself is witnessed by `fetchCommentsGo` being a
total function: its recursion is well-founded because every non-halting
iteration appends at least one comment, shrinking the room left below the
cap. -/
theorem comment_fetch_capped :
    MAX_TOTAL_COMMENTS = 5000 ∧
    ∀ pages : Nat → List String,
      (fetch_comments_with_selenium pages).length ≤ MAX_TOTAL_COMMENTS :=
  ⟨rfl, fun pages =>
    fetchCommentsGo_length_le pages MAX_TOTAL_COMMENTS 1 [] none
      (Nat.zero_le _) (Nat.sub_le _ _)⟩



/-- C5 counterexample: on pages `[["x","y"],["x","z"]]` the fetcher returns
`["x","y","x","z"]`, in which the text `"x"` occurs twice — deduplication does
not hold across pages, so the returned sequence is not duplicate-free. -/
theorem comment_text_repeats_across_pages :
    fetch_comments_with_selenium pagesXrepeat = ["x", "y", "x", "z"] ∧
    ¬ (fetch_comments_with_selenium pagesXrepeat).Nodup := by
  have h1 : fetch_comments_with_selenium pagesXrepeat = ["x", "y", "x", "z"] := by
    rw [fetch_comments_with_selenium]
    rw [fetchCommentsGo_next pagesXrepeat 1 [] none (by decide) (by decide) (by decide)]
    rw [fetchCommentsGo_next pagesXrepeat 2 ([] ++ extractPage (pagesXrepeat 1))
      (extractPage (pagesXrepeat 1)).getLast? (by decide) (by decide) (by decide)]
    rw [fetchCommentsGo_empty pagesXrepeat 3 _ _ (by decide)]
    decide
  exact ⟨h1, by rw [h1]; decide⟩

/-- C5 (amended): duplicates are collapsed within each page preserving first
occurrence — each page contributes a duplicate-free, order-preserving
subsequence holding exactly the page\'s non-empty texts — and each non-halting
iteration appends exactly that deduplicated block; no deduplication is
performed across pages (cross-page repetition is only detected at the page
boundary, where it halts pagination). -/
theorem comment_dedup_within_page_only :
    (∀ texts : List String,
       (extractPage texts).Nodup ∧
       (extractPage texts).Sublist (texts.filter (fun s => s != "")) ∧
       (∀ s, s ∈ extractPage texts ↔ s ∈ texts ∧ s ≠ "")) ∧
    (∀ (pages : Nat → List String) (page : Nat) (acc : List String) (t : Option String),
       extractPage (pages page) ≠ [] →
       boundaryDup t (extractPage (pages page)) = false →
       (acc ++ extractPage (pages page)).length < MAX_TOTAL_COMMENTS →
       fetchCommentsGo pages page acc t
         = fetchCommentsGo pages (page + 1) (acc ++ extractPage (pages page))
             (extractPage (pages page)).getLast?) :=
  ⟨fun texts => ⟨extractPage_nodup texts, extractPage_sublist texts, extractPage_mem texts⟩,
   fetchCommentsGo_next⟩

/-- C5 witness: within-page deduplication and the append step discharged at
concrete inputs. -/
theorem comment_dedup_within_page_only_witness :
    (extractPage ["x", "x", "y"]).Nodup ∧
    fetchCommentsGo pagesXrepeat 2 ["x", "y"] (some "y")
      = fetchCommentsGo pagesXrepeat 3 (["x", "y"] ++ extractPage (pagesXrepeat 2))
          (extractPage (pagesXrepeat 2)).getLast? :=
  ⟨(comment_dedup_within_page_only.1 ["x", "x", "y"]).1,
   comment_dedup_within_page_only.2 pagesXrepeat 2 ["x", "y"] (some "y")
     (by decide) (by decide) (by decide)⟩

/-- C6 counterexample: on body pages A, B, A the fetcher returns
`["A","B","A"]`, which is not pairwise distinct — only adjacent pages are
compared, so a page may repeat a non-adjacent earlier page. -/
theorem body_pages_not_pairwise_distinct :
    fetch_article_pages pagesABA = ["A", "B", "A"] ∧
    ¬ (fetch_article_pages pagesABA).Nodup := by
  constructor <;> decide

/-- C6 (amended): body pagination halts at the first page whose extracted body
is empty or identical to the immediately preceding page\'s body, without
appending that page; the result is an ordered sequence of non-empty pages of
length at most 10 in which adjacent pages are distinct (pairwise distinctness
does not hold in general); on pages `["A","B","B"]` the result is
`["A","B"]`. -/
theorem body_pagination_adjacent_distinct :
    (∀ pages : Nat → Option String,
       (fetch_article_pages pages).length ≤ MAX_BODY_PAGES ∧
       "" ∉ fetch_article_pages pages ∧
       List.Chain' (fun a b => a ≠ b) (fetch_article_pages pages)) ∧
    (∀ (pages : Nat → Option String) (n page : Nat) (bodies : List String) (body : String),
       pages page = some body → (body = "" ∨ bodies.getLast? = some body) →
       fetchBodiesGo pages (n + 1) page bodies = bodies) ∧
    fetch_article_pages pagesABB = ["A", "B"] := by
  refine ⟨?_, ?_, by decide⟩
  · intro pages
    have h := fetchBodiesGo_invariant pages MAX_BODY_PAGES 1 [] (by simp) (by simp)
    exact ⟨by simpa using h.1, h.2.1, h.2.2⟩
  · intro pages n page bodies body hpg hstop
    rw [fetchBodiesGo, hpg]
    dsimp only
    rw [if_pos hstop]

/-- C6 witness: the halt-without-appending fact discharged at page 3 of the
A, B, B stream. -/
theorem body_pagination_adjacent_distinct_witness :
    fetchBodiesGo pagesABB 1 3 ["A", "B"] = ["A", "B"] :=
  body_pagination_adjacent_distinct.2.1 pagesABB 0 3 ["A", "B"] "B"
    (by decide) (by decide)

/-- C7: for every source record whose timestamp normalizes to `T` (and whose
title and URL are non-empty and whose URL is not in the ledger), admission by
the transfer stage is decided exactly by the inclusive window test
`windowStart now ≤ T ∧ T ≤ windowEnd now`: the record is staged when the test
holds and dropped otherwise. -/
theorem transfer_window_test_inclusive (parseDate : String → Int → Option Int)
    (formatDate : Int → String) (hdr : List String)
    (title url praw site : String) (existing : List String) (now T : Int)
    (hT : parseDate praw now = some T)
    (htitle : pyStrip title ≠ "") (hurl : pyStrip url ≠ "")
    (hex : pyStrip url ∉ existing) :
    transfer_a_to_e parseDate formatDate [hdr, [title, url, praw, site]] existing now
      = if windowStart now ≤ T ∧ T ≤ windowEnd now
        then [["Yahoo", pyStrip title, pyStrip url, formatDate T, pyStrip site]]
        else [] :=
  transfer_single_record parseDate formatDate hdr title url praw site existing now T
    hT htitle hurl hex

/-- C7 witness: at the concrete reference instant `nowDay100`, a record at
exactly the window start (15:00:00) is admitted, one at exactly the window end
(14:59:59) is admitted, and records one second before the start or one second
after the end are dropped. -/
theorem transfer_window_test_inclusive_witness :
    transfer_a_to_e pdBoundary fdConst [["h"], ["t", "u", "atStart", "s"]] [] nowDay100
      = [["Yahoo", "t", "u", "25/8/20 10:00", "s"]] ∧
    transfer_a_to_e pdBoundary fdConst [["h"], ["t", "u", "atEnd", "s"]] [] nowDay100
      = [["Yahoo", "t", "u", "25/8/20 10:00", "s"]] ∧
    transfer_a_to_e pdBoundary fdConst [["h"], ["t", "u", "beforeStart", "s"]] [] nowDay100
      = [] ∧
    transfer_a_to_e pdBoundary fdConst [["h"], ["t", "u", "afterEnd", "s"]] [] nowDay100
      = [] := by
  refine ⟨?_, ?_, ?_, ?_⟩
  · rw [transfer_window_test_inclusive pdBoundary fdConst ["h"] "t" "u" "atStart" "s" []
      nowDay100 (99 * 86400 + 54000) (by decide) (by decide) (by decide) (by decide)]
    decide
  · rw [transfer_window_test_inclusive pdBoundary fdConst ["h"] "t" "u" "atEnd" "s" []
      nowDay100 (100 * 86400 + 53999) (by decide) (by decide) (by decide) (by decide)]
    decide
  · rw [transfer_window_test_inclusive pdBoundary fdConst ["h"] "t" "u" "beforeStart" "s" []
      nowDay100 (99 * 86400 + 53999) (by decide) (by decide) (by decide) (by decide)]
    decide
  · rw [transfer_window_test_inclusive pdBoundary fdConst ["h"] "t" "u" "afterEnd" "s" []
      nowDay100 (100 * 86400 + 54000) (by decide) (by decide) (by decide) (by decide)]
    decide



theorem bodyHeaders_length : bodyHeaders.length = MAX_BODY_PAGES := by
  simp [bodyHeaders]

theorem commentHeaders_length (m : Nat) : (commentHeaders m).length = max 1 m := by
  simp [commentHeaders]

theorem ensure_headers_length (m : Nat) :
    (ensure_body_comment_headers m).length = 5 + MAX_BODY_PAGES + 1 + max 1 m := by
  simp [ensure_body_comment_headers, baseHeaders, bodyHeaders_length, commentHeaders_length]
  omega

theorem write_some (results : List (Option (List String × List String)))
    (hdr : List String) (rows : List (List Cell))
    (hw : write_bodies_and_comments results = some (hdr, rows)) :
    hdr = ensure_body_comment_headers (rowsAndMax results).2 ∧
    rows = (rowsAndMax results).1.map (padRow (MAX_BODY_PAGES + 1 + (rowsAndMax results).2)) := by
  rw [write_bodies_and_comments] at hw
  by_cases he : results.isEmpty
  · rw [if_pos he] at hw; cases hw
  · rw [if_neg he] at hw
    cases hw
    exact ⟨rfl, rfl⟩

theorem padded_rows_length (results : List (Option (List String × List String))) :
    ∀ r ∈ (rowsAndMax results).1.map
        (padRow (MAX_BODY_PAGES + 1 + (rowsAndMax results).2)),
      r.length = MAX_BODY_PAGES + 1 + (rowsAndMax results).2 := by
  intro r hr
  rw [List.mem_map] at hr
  obtain ⟨r0, hr0, rfl⟩ := hr
  exact padRow_length _ r0 (rowsAndMax_row_le results r0 hr0)

/-- C8: for every enrichment pass the emitted header consists of 5 fixed
labels, `MAX_BODY_PAGES` body-page labels, 1 comment-count label and
`max 1 maxCommentCount` numbered comment labels, and every written row is
right-padded with empty cells to exactly `MAX_BODY_PAGES + 1 + maxCommentCount`
enrichment columns, where `maxCommentCount` is the maximum per-row comment
count; for per-row counts `[0, 3, 1]` the maximum is 3, the header carries
exactly 3 comment labels, and every row has `10 + 1 + 3` enrichment columns. -/
theorem schema_widening_width :
    (∀ (results : List (Option (List String × List String)))
       (hdr : List String) (rows : List (List Cell)),
       write_bodies_and_comments results = some (hdr, rows) →
       hdr.length = 5 + MAX_BODY_PAGES + 1 + max 1 (rowsAndMax results).2 ∧
       (commentHeaders (rowsAndMax results).2).length = max 1 (rowsAndMax results).2 ∧
       ∀ r ∈ rows, r.length = MAX_BODY_PAGES + 1 + (rowsAndMax results).2) ∧
    ((rowsAndMax resultsCounts031).2 = 3 ∧
     (commentHeaders (rowsAndMax resultsCounts031).2).length = 3 ∧
     ∃ hdr rows, write_bodies_and_comments resultsCounts031 = some (hdr, rows) ∧
       ∀ r ∈ rows, r.length = MAX_BODY_PAGES + 1 + 3) := by
  constructor
  · intro results hdr rows hw
    obtain ⟨rfl, rfl⟩ := write_some results hdr rows hw
    exact ⟨ensure_headers_length _, commentHeaders_length _, padded_rows_length results⟩
  · refine ⟨by decide, by decide, ⟨_, _, rfl, by decide⟩⟩

/-- C8 witness: the header-width equation discharged at the concrete
`[0, 3, 1]` enrichment outcome. -/
theorem schema_widening_width_witness :
    (ensure_body_comment_headers (rowsAndMax resultsCounts031).2).length
      = 5 + MAX_BODY_PAGES + 1 + max 1 (rowsAndMax resultsCounts031).2 :=
  (schema_widening_width.1 resultsCounts031
    (ensure_body_comment_headers (rowsAndMax resultsCounts031).2)
    ((rowsAndMax resultsCounts031).1.map
      (padRow (MAX_BODY_PAGES + 1 + (rowsAndMax resultsCounts031).2)))
    rfl).1

/-- C9: a per-URL enrichment failure never aborts the batch — the output has
exactly one row per URL, and every URL whose fetch raised contributes the
degraded row of `MAX_BODY_PAGES` empty body cells and comment count 0 (with no
comment cells before padding); for three URLs where the second raises, the
written block has 3 rows and the second is the degraded row padded with empty
cells. -/
theorem per_url_failure_degrades_row :
    (∀ results : List (Option (List String × List String)),
       (rowsAndMax results).1.length = results.length) ∧
    (∀ (results : List (Option (List String × List String))) (i : Nat),
       results.get? i = some none → (rowsAndMax results).1.get? i = some errorRow) ∧
    (∃ hdr rows, write_bodies_and_comments resultsMidError = some (hdr, rows) ∧
       rows.length = 3 ∧
       rows.get? 1 = some (List.replicate MAX_BODY_PAGES (Cell.str "")
         ++ [Cell.num 0] ++ [Cell.str ""])) := by
  refine ⟨rowsAndMax_length, rowsAndMax_get_none, ⟨_, _, rfl, by decide, by decide⟩⟩

/-- C9 witness: the degraded-row fact discharged at index 1 of the concrete
three-URL outcome with a failing second URL. -/
theorem per_url_failure_degrades_row_witness :
    (rowsAndMax resultsMidError).1.get? 1 = some errorRow :=
  per_url_failure_degrades_row.2.1 resultsMidError 1 (by decide)

/-- C10: when the enrichment pass observes a maximum comment count of zero,
the header still carries exactly one comment label while every data row is
padded only to `MAX_BODY_PAGES + 1` cells, so the header row
(5 + 10 + 1 + 1 columns) is exactly one column wider than the widest data row
written in that pass (5 prefix columns + 11 enrichment cells). -/
theorem header_one_wider_when_no_comments
    (results : List (Option (List String × List String)))
    (hdr : List String) (rows : List (List Cell))
    (hw : write_bodies_and_comments results = some (hdr, rows))
    (hm : (rowsAndMax results).2 = 0) :
    (commentHeaders 0).length = 1 ∧
    (∀ r ∈ rows, r.length = MAX_BODY_PAGES + 1) ∧
    hdr.length = 5 + (MAX_BODY_PAGES + 1) + 1 := by
  obtain ⟨rfl, rfl⟩ := write_some results hdr rows hw
  refine ⟨by decide, ?_, ?_⟩
  · intro r hr
    have := padded_rows_length results r hr
    rw [hm] at this
    simpa using this
  · rw [ensure_headers_length, hm]
    decide

/-- C10 witness: the claim theorem discharged at a single-URL pass whose only
fetch raised (maximum comment count 0). -/
theorem header_one_wider_when_no_comments_witness :
    (commentHeaders 0).length = 1 ∧
    (∀ r ∈ (rowsAndMax resultsOneError).1.map
        (padRow (MAX_BODY_PAGES + 1 + (rowsAndMax resultsOneError).2)),
      r.length = MAX_BODY_PAGES + 1) ∧
    (ensure_body_comment_headers (rowsAndMax resultsOneError).2).length
      = 5 + (MAX_BODY_PAGES + 1) + 1 :=
  header_one_wider_when_no_comments resultsOneError _ _ rfl rfl

end YahooMain
